import Mathlib

/-!
Formal model of the `Sequencer` module of the SENGBARD plugin
(`src/plugin/src/Sequencer.cpp`).  Floating-point quantities are idealised
as rationals, machine `int` is modelled as `Int` (with C truncated division
and remainder where they occur), and each per-tick code fragment is embedded
as a pure state-transformer.  Every definition cites the source lines it
embeds.
-/

namespace Sengbard

/-- Direction modes (`enum Direction`, Sequencer.cpp lines 23-28). -/
inductive Direction where
  | forward
  | reverse
  | pendulum
  | random
deriving DecidableEq, Repr

/-- Integer code of a direction, as serialised by `dataToJson` (line 700). -/
def Direction.toInt : Direction → Int
  | .forward => 0
  | .reverse => 1
  | .pendulum => 2
  | .random => 3

/-- The C++ cast `(Direction)v` used at lines 321 and 757.  Only the codes
0-3 name enumerators; other values are mapped to `forward` here (the cast
does not produce a meaningful enumerator for them in the source either). -/
def Direction.ofInt (v : Int) : Direction :=
  if v = 1 then .reverse
  else if v = 2 then .pendulum
  else if v = 3 then .random
  else .forward

/-- The C cast `(int)q` of a floating value: truncation toward zero. -/
def cTrunc (q : ℚ) : Int :=
  if 0 ≤ q then ⌊q⌋ else -⌊-q⌋

/-- The C++ `%` on `int`: remainder of truncated division. -/
def cppMod (a b : Int) : Int := Int.tmod a b

/-- `struct TrackData` (lines 31-37). -/
structure TrackData where
  stepCount : Int
  divisionIndex : Int
  direction : Direction
  pitches : Fin 8 → ℚ
  gates : Fin 8 → Bool

/-- A default-constructed `TrackData` (field initialisers, lines 32-36). -/
def TrackData.default : TrackData where
  stepCount := 8
  divisionIndex := 2
  direction := .forward
  pitches := fun _ => 0
  gates := fun _ => true

/-- `struct SceneData` (lines 40-43). -/
structure SceneData where
  tracks : Fin 3 → TrackData
  isEmpty : Bool

/-- A default-constructed `SceneData` (lines 40-43): empty, default tracks. -/
def SceneData.default : SceneData where
  tracks := fun _ => TrackData.default
  isEmpty := true

/-- The ratio table `DIVISIONS` (lines 10-19), idealised to exact rationals. -/
def DIVISIONS : Fin 8 → ℚ := ![4, 2, 1, 1/2, 1/3, 1/4, 1/6, 1/8]

/-- Total wrapper for the C array accesses `gates[i]` / `pitches[i]` on a
step index held in an `int`.  All indices reachable in the program lie in
`[0, 8)`, where this wrapper agrees with the C array access. -/
def stepIndex (i : Int) : Fin 8 := ⟨i.toNat % 8, Nat.mod_lt _ (by norm_num)⟩

/-- The `DIR_PENDULUM` branch of `advanceStep` (lines 294-303), acting on
the pair (`currentStep`, `pendulumDir`). -/
def pendulumAdvance (steps : Int) (sp : Int × Int) : Int × Int :=
  let s := sp.1 + sp.2
  if steps - 1 ≤ s then (steps - 1, -1)
  else if s ≤ 0 then (0, 1)
  else (s, sp.2)

/-- `Sequencer::advanceStep` (lines 282-308) for one track: the new
(`currentStep`, `pendulumDir`) pair.  The `random::u32()` draw consumed by
the `DIR_RANDOM` branch is passed in as `rnd`. -/
def advanceStep (td : TrackData) (sp : Int × Int) (rnd : ℕ) : Int × Int :=
  match td.direction with
  | .forward => (cppMod (sp.1 + 1) td.stepCount, sp.2)
  | .reverse => (cppMod (sp.1 - 1 + td.stepCount) td.stepCount, sp.2)
  | .pendulum => pendulumAdvance td.stepCount sp
  | .random => (cppMod ((rnd % 2 ^ 32 : ℕ) : Int) td.stepCount, sp.2)

/-- The pendulum orbit of claim C9: iterated pendulum advances with
`stepCount = 4`, starting at step 0 with pendulum sign +1. -/
def pendSeq : ℕ → Int × Int
  | 0 => (0, 1)
  | n + 1 => pendulumAdvance 4 (pendSeq n)

/-- The triangle sequence `0,1,2,3,2,1` that the spec predicts for one
period of the pendulum orbit with four steps. -/
def triangle4 (r : ℕ) : Int := [0, 1, 2, 3, 2, 1].getD r 0

lemma pendSeq_add_six (n : ℕ) : pendSeq (n + 6) = pendSeq n := by
  induction n with
  | zero => decide
  | succ n ih =>
      have h1 : n + 1 + 6 = (n + 6) + 1 := by omega
      rw [h1]
      show pendulumAdvance 4 (pendSeq (n + 6)) = pendulumAdvance 4 (pendSeq n)
      rw [ih]

lemma pendSeq_mod (n : ℕ) : pendSeq n = pendSeq (n % 6) := by
  induction n using Nat.strong_induction_on with
  | _ n ih =>
      by_cases h : n < 6
      · rw [Nat.mod_eq_of_lt h]
      · have h6 : n - 6 + 6 = n := by omega
        have h7 := pendSeq_add_six (n - 6)
        rw [h6] at h7
        rw [h7, ih (n - 6) (by omega)]
        congr 1
        omega

/-- C9: in Pendulum mode with `stepCount = 4`, starting from step 0 with
pendulum sign +1, the sequence of step values over successive advances is
the period-6 triangle `0,1,2,3,2,1,0,1,2,…`, and the pendulum sign flips
exactly on the advances that arrive at step 3 (flip to −1) or at step 0
(flip to +1) — i.e. the direction reverses exactly at steps 0 and 3. -/
theorem C9_pendulum_orbit (n : ℕ) :
    (pendSeq n).1 = triangle4 (n % 6) ∧
    ((pendSeq (n + 1)).2 ≠ (pendSeq n).2 ↔
      (pendSeq (n + 1)).1 = 0 ∨ (pendSeq (n + 1)).1 = 3) := by
  have h1 := pendSeq_mod n
  have h2 := pendSeq_mod (n + 1)
  have h3 : (n + 1) % 6 = (n % 6 + 1) % 6 := by omega
  rw [h1, h2, h3]
  have h4 : n % 6 < 6 := Nat.mod_lt _ (by norm_num)
  set r := n % 6 with hr
  interval_cases r <;> decide

lemma cppMod_range (a b : Int) (ha : 0 ≤ a) (hb : 0 < b) :
    0 ≤ cppMod a b ∧ cppMod a b < b := by
  unfold cppMod
  rw [Int.tmod_eq_emod ha (le_of_lt hb)]
  exact ⟨Int.emod_nonneg a (by omega), Int.emod_lt_of_pos a hb⟩

/-- C10: for every direction mode, every pendulum sign, every random draw
and every `stepCount` in 1..8, a single `advanceStep` call leaves the
track's step inside `[0, stepCount)` — also when the incoming step is at or
above `stepCount` (any nonnegative incoming step; the program's step
variable is only ever assigned nonnegative values). -/
theorem C10_advance_in_range (td : TrackData) (sp : Int × Int) (rnd : ℕ)
    (hsc1 : 1 ≤ td.stepCount) (hsc8 : td.stepCount ≤ 8) (hstep : 0 ≤ sp.1) :
    0 ≤ (advanceStep td sp rnd).1 ∧ (advanceStep td sp rnd).1 < td.stepCount := by
  obtain ⟨s, p⟩ := sp
  cases hdir : td.direction with
  | forward =>
      simp only [advanceStep, hdir]
      exact cppMod_range _ _ (by simpa using by omega) (by omega)
  | reverse =>
      simp only [advanceStep, hdir]
      exact cppMod_range _ _ (by simp at hstep ⊢; omega) (by omega)
  | pendulum =>
      simp only [advanceStep, hdir, pendulumAdvance]
      split
      · constructor <;> omega
      · split
        · constructor <;> omega
        · simp_all; omega
  | random =>
      simp only [advanceStep, hdir]
      exact cppMod_range _ _ (by positivity) (by omega)

/-- A concrete track used to instantiate C10: forward direction with
`stepCount = 4`. -/
def trackFwd4 : TrackData :=
  { stepCount := 4, divisionIndex := 2, direction := .forward,
    pitches := fun _ => 0, gates := fun _ => true }

/-- Witness for C10: advancing `trackFwd4` from the out-of-range step 7
(as after lowering the step count from 8 to 4) lands back in `[0, 4)`. -/
theorem C10_advance_in_range_witness :
    (1 ≤ trackFwd4.stepCount ∧ trackFwd4.stepCount ≤ 8 ∧ 0 ≤ (7 : Int)) ∧
    (0 ≤ (advanceStep trackFwd4 (7, 1) 0).1 ∧
      (advanceStep trackFwd4 (7, 1) 0).1 < trackFwd4.stepCount) :=
  ⟨⟨by decide, by decide, by decide⟩,
    C10_advance_in_range trackFwd4 (7, 1) 0 (by decide) (by decide) (by decide)⟩

/-- Lines 318-322 of `Sequencer::process`: the per-tick read of the three
track control knobs into the current scene.  The raw `(int)`-cast values
are stored; the source applies no clamping here. -/
def readTrackParams (stepsParam divParam dirParam : ℚ) (t : TrackData) : TrackData :=
  { t with
    stepCount := cTrunc stepsParam
    divisionIndex := cTrunc divParam
    direction := Direction.ofInt (cTrunc dirParam) }

/-- C1 counterexample: the per-tick parameter read stores the raw cast
value.  With a division knob value of 12 (out of the configured 0-7 range,
e.g. restored into the raw parameter by `loadSceneToParams` from a corrupt
patch), the stored `divisionIndex` is 12, not clamped into 0-7 — so the
claimed defensive clamping does not exist and `DIVISIONS[divisionIndex]`
would be an out-of-bounds access. -/
theorem C1_unclamped_counterexample :
    (readTrackParams 8 12 0 TrackData.default).divisionIndex = 12 ∧
    ¬(readTrackParams 8 12 0 TrackData.default).divisionIndex ≤ 7 := by
  constructor <;> decide

/-- C1 (amended): the per-tick parameter read stores the truncated values
without clamping; whenever the panel values are inside their configured
ranges (steps 1-8, division 0-7, direction 0-3, as set up by `configParam`
/ `configSwitch`), the stored `stepCount` and `divisionIndex` are in range
— in particular `divisionIndex.toNat < 8`, so indexing the 8-entry
`DIVISIONS` table is in bounds — and the stored direction is the enumerator
with code `cTrunc dirParam`. -/
theorem C1_in_range_when_panel_in_range (ss dv dr : ℚ) (t : TrackData)
    (hs1 : 1 ≤ ss) (hs8 : ss ≤ 8) (hd0 : 0 ≤ dv) (hd7 : dv ≤ 7)
    (hr0 : 0 ≤ dr) (hr3 : dr ≤ 3) :
    (1 ≤ (readTrackParams ss dv dr t).stepCount ∧
      (readTrackParams ss dv dr t).stepCount ≤ 8) ∧
    (0 ≤ (readTrackParams ss dv dr t).divisionIndex ∧
      (readTrackParams ss dv dr t).divisionIndex ≤ 7) ∧
    ((readTrackParams ss dv dr t).divisionIndex.toNat < 8) ∧
    ((readTrackParams ss dv dr t).direction = Direction.ofInt (cTrunc dr) ∧
      0 ≤ cTrunc dr ∧ cTrunc dr ≤ 3) := by
  have hfloor : ∀ (q : ℚ) (lo hi : Int), 0 ≤ lo → (lo : ℚ) ≤ q → q ≤ (hi : ℚ) →
      lo ≤ cTrunc q ∧ cTrunc q ≤ hi := by
    intro q lo hi hlo0 hlo hhi
    have hq : 0 ≤ q := le_trans (by exact_mod_cast hlo0) hlo
    unfold cTrunc
    rw [if_pos hq]
    refine ⟨Int.le_floor.mpr hlo, ?_⟩
    have h5 := Int.floor_le_floor hhi
    simpa using h5
  have h1 := hfloor ss 1 8 (by norm_num) (by push_cast; linarith) (by push_cast; linarith)
  have h2 := hfloor dv 0 7 (by norm_num) (by push_cast; linarith) (by push_cast; linarith)
  have h3 := hfloor dr 0 3 (by norm_num) (by push_cast; linarith) (by push_cast; linarith)
  refine ⟨⟨h1.1, h1.2⟩, ⟨h2.1, h2.2⟩, ?_, rfl, h3.1, h3.2⟩
  simp only [readTrackParams]
  omega

/-- Witness for the amended C1 at in-range panel values 8 / 7 / 3. -/
theorem C1_in_range_witness :
    ((1 : ℚ) ≤ 8 ∧ (8 : ℚ) ≤ 8 ∧ (0 : ℚ) ≤ 7 ∧ (7 : ℚ) ≤ 7 ∧
      (0 : ℚ) ≤ 3 ∧ (3 : ℚ) ≤ 3) ∧
    ((1 ≤ (readTrackParams 8 7 3 TrackData.default).stepCount ∧
      (readTrackParams 8 7 3 TrackData.default).stepCount ≤ 8) ∧
    (0 ≤ (readTrackParams 8 7 3 TrackData.default).divisionIndex ∧
      (readTrackParams 8 7 3 TrackData.default).divisionIndex ≤ 7) ∧
    ((readTrackParams 8 7 3 TrackData.default).divisionIndex.toNat < 8) ∧
    ((readTrackParams 8 7 3 TrackData.default).direction =
        Direction.ofInt (cTrunc 3) ∧
      0 ≤ cTrunc 3 ∧ cTrunc 3 ≤ 3)) :=
  ⟨⟨by norm_num, by norm_num, by norm_num, by norm_num, by norm_num, by norm_num⟩,
    C1_in_range_when_panel_in_range 8 7 3 TrackData.default
      (by norm_num) (by norm_num) (by norm_num) (by norm_num)
      (by norm_num) (by norm_num)⟩

/-- The per-track mutable playback state of `Sequencer` (lines 123-173)
touched by the claims: step position, pendulum sign, division clock phase,
swing countdown, parity, pending-swing latch and the output pair that is
kept in sync with the gate. -/
structure TrackRuntime where
  currentStep : Int
  pendulumDir : Int
  clockPhase : ℚ
  swingAccumulator : ℚ
  stepParity : Int
  pendingSwingGate : Bool
  pendingSwingStep : Int
  outputPitch : ℚ
  outputStep : Int
  trackClockPhase : ℚ
  trackSubStep : Int
deriving DecidableEq, Repr

/-- The per-track part of the in-tick reset handler (lines 349-353):
`currentStep = 0; pendulumDir = 1; clockPhase = 0`.  Nothing else of the
track state is touched. -/
def resetTracks (tr : TrackRuntime) : TrackRuntime :=
  { tr with currentStep := 0, pendulumDir := 1, clockPhase := 0 }

/-- The whole reset handler body (lines 348-356): per-track reset plus
`internalClockPhase = 0`.  The second component is the new internal clock
phase. -/
def applyReset (ts : Fin 3 → TrackRuntime) (_internalClockPhase : ℚ) :
    (Fin 3 → TrackRuntime) × ℚ :=
  (fun t => resetTracks (ts t), 0)

/-- C2 counterexample: the reset handler does not clear an in-flight swing
delay.  A track with an armed swing countdown keeps `pendingSwingGate` and
its countdown value across the reset, so an armed swing countdown remains
after the reset — contradicting the claim. -/
theorem C2_reset_keeps_pending_swing :
    (resetTracks
      { currentStep := 3, pendulumDir := -1, clockPhase := 1/2,
        swingAccumulator := 1/4, stepParity := 1, pendingSwingGate := true,
        pendingSwingStep := 5, outputPitch := 2, outputStep := 4,
        trackClockPhase := 0, trackSubStep := 0 }).pendingSwingGate = true ∧
    (resetTracks
      { currentStep := 3, pendulumDir := -1, clockPhase := 1/2,
        swingAccumulator := 1/4, stepParity := 1, pendingSwingGate := true,
        pendingSwingStep := 5, outputPitch := 2, outputStep := 4,
        trackClockPhase := 0, trackSubStep := 0 }).swingAccumulator = 1/4 :=
  ⟨rfl, rfl⟩

/-- C2 (amended): for every prior state, a reset event sets every track's
current step to 0, its pendulum sign to +1, its clock-phase accumulator to
0, and zeroes the internal clock phase — but it leaves the pending swing
state (`pendingSwingGate`, `swingAccumulator`, `pendingSwingStep`) exactly
as it was, so an in-flight swing delay is *not* cleared. -/
theorem C2_reset_effect (ts : Fin 3 → TrackRuntime) (icp : ℚ) :
    (∀ t : Fin 3,
      ((applyReset ts icp).1 t).currentStep = 0 ∧
      ((applyReset ts icp).1 t).pendulumDir = 1 ∧
      ((applyReset ts icp).1 t).clockPhase = 0 ∧
      ((applyReset ts icp).1 t).pendingSwingGate = (ts t).pendingSwingGate ∧
      ((applyReset ts icp).1 t).swingAccumulator = (ts t).swingAccumulator ∧
      ((applyReset ts icp).1 t).pendingSwingStep = (ts t).pendingSwingStep) ∧
    (applyReset ts icp).2 = 0 := by
  refine ⟨fun t => ?_, rfl⟩
  simp [applyReset, resetTracks]

/-- `rack::dsp::SchmittTrigger` state: `state` is true once the input has
risen to ≥ 1 V and stays true until it falls back to ≤ 0 V. -/
structure SchmittTrigger where
  state : Bool
deriving DecidableEq, Repr

/-- `SchmittTrigger::process`: returns the new state and true exactly on
the rising transition. -/
def SchmittTrigger.process (st : SchmittTrigger) (v : ℚ) : SchmittTrigger × Bool :=
  if st.state then
    (if v ≤ 0 then ⟨false⟩ else st, false)
  else
    if 1 ≤ v then (⟨true⟩, true) else (st, false)

/-- The clock-related mutable state of `Sequencer` (lines 139, 159-161 and
the external-clock edge detector of line 128). -/
structure ClockState where
  internalClockPhase : ℚ
  clockPeriod : ℚ
  elapsedTime : ℚ
  lastClockRiseTime : ℚ
  clockTrigger : SchmittTrigger
deriving DecidableEq, Repr

/-- Lines 424 and 437-470 of `Sequencer::process`: the elapsed-time update,
the unconditional BPM-based `clockPeriod` assignment (`clockPeriod = 1 /
(bpm / 60)`, executed on every tick), and — while running — either the
internal phase-accumulator clock or the external edge detector with its
plausible-interval (0.01 s - 4 s) period measurement.  Returns the new
state and `clockRising`. -/
def clockTick (cs : ClockState) (isRunning useInternalClock : Bool)
    (bpm clockInputVoltage sampleTime : ℚ) : ClockState × Bool :=
  let clockFreq := bpm / 60
  let cs1 : ClockState :=
    { cs with elapsedTime := cs.elapsedTime + sampleTime, clockPeriod := 1 / clockFreq }
  if isRunning then
    if useInternalClock then
      let phase := cs1.internalClockPhase + clockFreq * sampleTime
      if 1 ≤ phase then
        ({ cs1 with internalClockPhase := phase - 1 }, true)
      else
        ({ cs1 with internalClockPhase := phase }, false)
    else
      let pr := cs1.clockTrigger.process clockInputVoltage
      let cs2 := { cs1 with clockTrigger := pr.1 }
      if pr.2 then
        let timeSinceLastClock := cs2.elapsedTime - cs2.lastClockRiseTime
        let cs3 :=
          if 1/100 < timeSinceLastClock ∧ timeSinceLastClock < 4 then
            { cs2 with clockPeriod := timeSinceLastClock }
          else cs2
        ({ cs3 with lastClockRiseTime := cs3.elapsedTime }, true)
      else (cs2, false)
  else (cs1, false)

/-- C3 counterexample: in external-clock mode, on a tick with no external
edge (input voltage 0, detector idle), the previous `clockPeriod` estimate
of 1 s is *not* retained: line 439 overwrites it with the BPM-derived value
60/120 = 1/2 s on every tick.  The same overwrite happens when `isRunning`
is false, so period-estimation state is not preserved while stopped. -/
theorem C3_period_overwritten_counterexample :
    ((clockTick
        { internalClockPhase := 0, clockPeriod := 1, elapsedTime := 10,
          lastClockRiseTime := 9, clockTrigger := ⟨false⟩ }
        true false 120 0 (1/100)).1.clockPeriod = 1/2 ∧
      (clockTick
        { internalClockPhase := 0, clockPeriod := 1, elapsedTime := 10,
          lastClockRiseTime := 9, clockTrigger := ⟨false⟩ }
        true false 120 0 (1/100)).2 = false) ∧
    (clockTick
        { internalClockPhase := 0, clockPeriod := 1, elapsedTime := 10,
          lastClockRiseTime := 9, clockTrigger := ⟨false⟩ }
        false false 120 0 (1/100)).1.clockPeriod = 1/2 := by
  refine ⟨⟨?_, ?_⟩, ?_⟩ <;> norm_num [clockTick, SchmittTrigger.process]

/-- C3 (amended): in external-clock mode the measured interval is adopted
as `clockPeriod` when a rising edge is detected and the time since the
previous rise lies in (0.01 s, 4 s); but on every tick with no detected
edge — including every tick while `isRunning` is false — `clockPeriod` is
overwritten with the BPM-derived value 60/BPM rather than retained.  While
not running, `lastClockRiseTime` and the edge-detector state are preserved
(only the period estimate is clobbered). -/
theorem C3_external_clock_period (cs : ClockState) (running : Bool)
    (bpm v dt : ℚ) :
    ((clockTick cs running false bpm v dt).2 = true →
      (1/100 < cs.elapsedTime + dt - cs.lastClockRiseTime ∧
        cs.elapsedTime + dt - cs.lastClockRiseTime < 4) →
      (clockTick cs running false bpm v dt).1.clockPeriod =
        cs.elapsedTime + dt - cs.lastClockRiseTime) ∧
    ((clockTick cs running false bpm v dt).2 = true →
      ¬(1/100 < cs.elapsedTime + dt - cs.lastClockRiseTime ∧
        cs.elapsedTime + dt - cs.lastClockRiseTime < 4) →
      (clockTick cs running false bpm v dt).1.clockPeriod = 60 / bpm) ∧
    ((clockTick cs running false bpm v dt).2 = false →
      (clockTick cs running false bpm v dt).1.clockPeriod = 60 / bpm) ∧
    (running = false →
      (clockTick cs running false bpm v dt).1.clockPeriod = 60 / bpm ∧
      (clockTick cs running false bpm v dt).1.lastClockRiseTime =
        cs.lastClockRiseTime ∧
      (clockTick cs running false bpm v dt).1.clockTrigger = cs.clockTrigger) := by
  cases running with
  | false =>
      refine ⟨fun h _ => by simp [clockTick] at h, fun h _ => by simp [clockTick] at h,
        fun _ => ?_, fun _ => ⟨?_, ?_, ?_⟩⟩ <;> simp [clockTick, one_div_div]
  | true =>
      by_cases hr : (cs.clockTrigger.process v).2 = true
      · by_cases hin : 1/100 < cs.elapsedTime + dt - cs.lastClockRiseTime ∧
            cs.elapsedTime + dt - cs.lastClockRiseTime < 4
        · refine ⟨fun _ _ => ?_, fun _ hout => absurd hin hout, fun h => ?_,
            fun h => by simp at h⟩
          · have hin1 : (100 : ℚ)⁻¹ < cs.elapsedTime + dt - cs.lastClockRiseTime := by
              rw [inv_eq_one_div]; exact hin.1
            simp [clockTick, hr, hin1, hin.2]
          · simp [clockTick, hr] at h
        · refine ⟨fun _ hin2 => absurd hin2 hin, fun _ _ => ?_, fun h => ?_,
            fun h => by simp at h⟩
          · have hin1 : ¬((100 : ℚ)⁻¹ < cs.elapsedTime + dt - cs.lastClockRiseTime ∧
                cs.elapsedTime + dt - cs.lastClockRiseTime < 4) := by
              rw [inv_eq_one_div]; exact hin
            simp [clockTick, hr, hin1, one_div_div]
          · simp [clockTick, hr] at h
      · refine ⟨fun h _ => ?_, fun h _ => ?_, fun _ => ?_, fun h => by simp at h⟩
        · simp [clockTick, hr] at h
        · simp [clockTick, hr] at h
        · simp [clockTick, hr, one_div_div]

/-- Witness for the amended C3: a concrete plausible external edge (1 s
since the previous rise) is adopted as the period, via the first conjunct
of `C3_external_clock_period`. -/
theorem C3_external_clock_period_witness :
    (clockTick
      { internalClockPhase := 0, clockPeriod := 1/2, elapsedTime := 10,
        lastClockRiseTime := 9 + 1/100, clockTrigger := ⟨false⟩ }
      true false 120 5 (1/100)).1.clockPeriod =
      (10 : ℚ) + 1/100 - (9 + 1/100) :=
  (C3_external_clock_period
      { internalClockPhase := 0, clockPeriod := 1/2, elapsedTime := 10,
        lastClockRiseTime := 9 + 1/100, clockTrigger := ⟨false⟩ }
      true 120 5 (1/100)).1
    (by norm_num [clockTick, SchmittTrigger.process])
    (by norm_num)

/-- `rack::math::clamp(x, a, b) = max(min(x, b), a)`. -/
def rackClamp (x a b : ℚ) : ℚ := max (min x b) a

/-- Lines 483-485: step duration and the clamped gate (pulse) duration. -/
def gateDuration (clockPeriod division pulseWidth : ℚ) : ℚ :=
  rackClamp (clockPeriod * division * pulseWidth) (1/1000)
    (clockPeriod * division * (19/20))

/-- Lines 529-558 of `Sequencer::process`: the body of the
`if (shouldAdvance)` block after the `advanceStep` call — the parity
toggle, the swing-delay computation
`clockPeriod * (division ≥ 1 ? division : 1) * swingAmount * 0.5`, and the
immediate-or-armed gate/pitch/LED update.  The second component is `some d`
when `gatePulse[t].trigger(d)` was called on this tick, `none` otherwise.
`tr.currentStep` is the step just arrived at by `advanceStep`. -/
def fireStep (tr : TrackRuntime) (td : TrackData)
    (clockPeriod division swingAmount gd : ℚ) : TrackRuntime × Option ℚ :=
  let parity := (tr.stepParity + 1) % 2
  let swingDelay : ℚ :=
    if parity = 1 ∧ 0 < swingAmount then
      clockPeriod * (if 1 ≤ division then division else 1) * swingAmount * (1/2)
    else 0
  let tr1 := { tr with stepParity := parity }
  let s := stepIndex tr1.currentStep
  if td.gates s then
    if 1/1000 < swingDelay then
      ({ tr1 with swingAccumulator := swingDelay, pendingSwingGate := true,
                  pendingSwingStep := tr1.currentStep }, none)
    else
      ({ tr1 with outputPitch := td.pitches s, outputStep := tr1.currentStep },
        some gd)
  else
    if swingDelay ≤ 1/1000 then
      ({ tr1 with outputPitch := td.pitches s, outputStep := tr1.currentStep },
        none)
    else (tr1, none)

/-- Lines 562-572 of `Sequencer::process`: the per-sample swing countdown.
Decrements an armed countdown by the sample time; on reaching ≤ 0 it fires
the delayed gate (`some gd`) and moves pitch and LED step to the pending
step. -/
def processSwing (tr : TrackRuntime) (pitches : Fin 8 → ℚ) (gd sampleTime : ℚ) :
    TrackRuntime × Option ℚ :=
  if tr.pendingSwingGate ∧ 0 < tr.swingAccumulator then
    let acc := tr.swingAccumulator - sampleTime
    if acc ≤ 0 then
      ({ tr with swingAccumulator := 0,
                 outputPitch := pitches (stepIndex tr.pendingSwingStep),
                 outputStep := tr.pendingSwingStep,
                 pendingSwingGate := false }, some gd)
    else ({ tr with swingAccumulator := acc }, none)
  else (tr, none)

/-- Iterated swing-countdown processing: the runtime state after `n`
further samples of `processSwing` (the first such sample runs in the same
`process` call as the clock edge that armed the delay). -/
def swingIter (pitches : Fin 8 → ℚ) (gd dt : ℚ) (tr : TrackRuntime) : ℕ → TrackRuntime
  | 0 => tr
  | n + 1 => (processSwing (swingIter pitches gd dt tr n) pitches gd dt).1

/-- The gate-trigger output of the `(n+1)`-st swing-countdown sample. -/
def swingFired (pitches : Fin 8 → ℚ) (gd dt : ℚ) (tr : TrackRuntime) (n : ℕ) :
    Option ℚ :=
  (processSwing (swingIter pitches gd dt tr n) pitches gd dt).2

lemma swing_countdown (pitches : Fin 8 → ℚ) (gd dt a : ℚ) (tr : TrackRuntime)
    (hp : tr.pendingSwingGate = true) (ha : tr.swingAccumulator = a)
    (hdt : 0 < dt) :
    ∀ n : ℕ, (n : ℚ) * dt < a →
      (swingIter pitches gd dt tr n).pendingSwingGate = true ∧
      (swingIter pitches gd dt tr n).swingAccumulator = a - n * dt ∧
      (swingIter pitches gd dt tr n).outputPitch = tr.outputPitch ∧
      (swingIter pitches gd dt tr n).outputStep = tr.outputStep ∧
      (swingIter pitches gd dt tr n).pendingSwingStep = tr.pendingSwingStep ∧
      (∀ m < n, swingFired pitches gd dt tr m = none) := by
  intro n
  induction n with
  | zero =>
      intro _
      refine ⟨hp, by simpa using ha.symm ▸ by ring_nf, rfl, rfl, rfl, fun m hm => absurd hm (by omega)⟩
  | succ n ih =>
      intro hlt
      have hnd : (n : ℚ) * dt < a := by
        have h1 : (n : ℚ) * dt < (n + 1 : ℕ) * dt := by
          push_cast
          nlinarith
        exact lt_trans h1 hlt
      obtain ⟨ih1, ih2, ih3, ih4, ih5, ih6⟩ := ih hnd
      have hacc : 0 < (swingIter pitches gd dt tr n).swingAccumulator := by
        rw [ih2]
        nlinarith
      have hstep : processSwing (swingIter pitches gd dt tr n) pitches gd dt =
          ({ swingIter pitches gd dt tr n with
              swingAccumulator := (swingIter pitches gd dt tr n).swingAccumulator - dt },
            none) := by
        unfold processSwing
        rw [if_pos ⟨ih1, hacc⟩, if_neg]
        rw [ih2]
        push_cast at hlt ⊢
        nlinarith
      refine ⟨?_, ?_, ?_, ?_, ?_, ?_⟩
      · show (processSwing (swingIter pitches gd dt tr n) pitches gd dt).1.pendingSwingGate = true
        rw [hstep]; exact ih1
      · show (processSwing (swingIter pitches gd dt tr n) pitches gd dt).1.swingAccumulator = a - (n + 1 : ℕ) * dt
        rw [hstep]
        simp only [ih2]
        push_cast
        ring
      · show (processSwing (swingIter pitches gd dt tr n) pitches gd dt).1.outputPitch = tr.outputPitch
        rw [hstep]; exact ih3
      · show (processSwing (swingIter pitches gd dt tr n) pitches gd dt).1.outputStep = tr.outputStep
        rw [hstep]; exact ih4
      · show (processSwing (swingIter pitches gd dt tr n) pitches gd dt).1.pendingSwingStep = tr.pendingSwingStep
        rw [hstep]; exact ih5
      · intro m hm
        rcases Nat.lt_succ_iff_lt_or_eq.mp hm with h | h
        · exact ih6 m h
        · subst h
          show (processSwing (swingIter pitches gd dt tr m) pitches gd dt).2 = none
          rw [hstep]

/-- A concrete track whose step-1 gate is disabled (all other gates on),
with pitch `s` volts on step `s`; used to instantiate C4. -/
def trackGateOff1 : TrackData :=
  { stepCount := 8, divisionIndex := 2, direction := .forward,
    pitches := fun s => (s : ℚ),
    gates := fun s => if s = 1 then false else true }

/-- A concrete runtime state for C4: the track has just advanced to step 1,
with pre-toggle parity 0 (so this advance is the swung one), and the
current output still showing step 0 / pitch 5 from before. -/
def rtSwungOff : TrackRuntime :=
  { currentStep := 1, pendulumDir := 1, clockPhase := 0,
    swingAccumulator := 0, stepParity := 0, pendingSwingGate := false,
    pendingSwingStep := 0, outputPitch := 5, outputStep := 0,
    trackClockPhase := 0, trackSubStep := 0 }

/-- C4 counterexample: an advance onto a gate-disabled step with swing
delay 1/4 s (> 1 ms) updates nothing — the display step and output pitch
keep their previous values (step 0, 5 V), no swing countdown is armed
(`pendingSwingGate` stays false, so no later update can fire either), and
no gate fires.  This contradicts the claim that the display/pitch output
still updates at the delayed moment. -/
theorem C4_swung_gate_disabled_counterexample :
    (fireStep rtSwungOff trackGateOff1 (1/2) 1 1 (1/4)).1.outputStep = 0 ∧
    (fireStep rtSwungOff trackGateOff1 (1/2) 1 1 (1/4)).1.outputPitch = 5 ∧
    (fireStep rtSwungOff trackGateOff1 (1/2) 1 1 (1/4)).1.pendingSwingGate = false ∧
    (fireStep rtSwungOff trackGateOff1 (1/2) 1 1 (1/4)).2 = none ∧
    processSwing (fireStep rtSwungOff trackGateOff1 (1/2) 1 1 (1/4)).1
        trackGateOff1.pitches (1/4) (1/100) =
      ((fireStep rtSwungOff trackGateOff1 (1/2) 1 1 (1/4)).1, none) := by
  norm_num [fireStep, processSwing, rtSwungOff, trackGateOff1, stepIndex]

/-- C4 (amended): when an advance event lands on a step whose gate is
disabled and the computed swing delay exceeds 1 ms, the code changes
nothing except the parity bit: no gate fires, no countdown is armed, and
the display step and output pitch keep their previous values permanently
(with no pending swing, the per-sample countdown is a no-op), rather than
updating at the delayed moment as the claim states. -/
theorem C4_swung_gate_disabled_no_update (tr : TrackRuntime) (td : TrackData)
    (cp division sw gd dt : ℚ)
    (hg : td.gates (stepIndex tr.currentStep) = false)
    (hpar : (tr.stepParity + 1) % 2 = 1)
    (hsw : 0 < sw)
    (hdelay : 1/1000 < cp * (if 1 ≤ division then division else 1) * sw * (1/2)) :
    fireStep tr td cp division sw gd = ({ tr with stepParity := 1 }, none) ∧
    (tr.pendingSwingGate = false →
      processSwing { tr with stepParity := 1 } td.pitches gd dt =
        ({ tr with stepParity := 1 }, none)) := by
  have hnotle : ¬(cp * (if 1 ≤ division then division else 1) * sw * (1/2) ≤ 1/1000) :=
    not_le.mpr hdelay
  refine ⟨?_, fun hpend => ?_⟩
  · simp [fireStep, hpar, hsw, hg, hnotle]
    intro hc
    exfalso
    rcases le_or_lt 1 division with h | h
    · rw [if_pos h] at hc
      rw [if_pos h] at hdelay
      norm_num at hc hdelay
      linarith
    · rw [if_neg (not_le.mpr h)] at hc
      rw [if_neg (not_le.mpr h)] at hdelay
      norm_num at hc hdelay
      linarith
  · simp [processSwing, hpend]

/-- Witness for the amended C4 at the concrete scenario of the
counterexample (gate of the target step disabled, swing delay 1/4 s). -/
theorem C4_swung_gate_disabled_no_update_witness :
    fireStep rtSwungOff trackGateOff1 (1/2) 1 1 (1/4) =
      ({ rtSwungOff with stepParity := 1 }, none) ∧
    (rtSwungOff.pendingSwingGate = false →
      processSwing { rtSwungOff with stepParity := 1 } trackGateOff1.pitches
          (1/4) (1/100) =
        ({ rtSwungOff with stepParity := 1 }, none)) :=
  C4_swung_gate_disabled_no_update rtSwungOff trackGateOff1 (1/2) 1 1 (1/4) (1/100)
    (by simp [trackGateOff1, rtSwungOff, stepIndex])
    (by simp [rtSwungOff])
    (by norm_num)
    (by norm_num)

lemma DIVISIONS_two : DIVISIONS 2 = 1 := by
  simp [DIVISIONS]

/-- C8: with swing 100% (`swingAmount = 1`), pulse width 50%, division
ratio 1 (`DIVISIONS[2]`) and `clockPeriod = 1/2` s (and the computed gate
duration then being 1/4 s), an advance onto a gate-enabled step with even
post-toggle parity (`stepParity` 1 before the toggle) fires its gate and
updates pitch and display step in the same sample as the clock edge (zero
delay).  An advance with odd post-toggle parity (`stepParity` 0 before the
toggle) instead arms a countdown of exactly
`clockPeriod · max(ratio,1) · swingAmount · 0.5 = 1/4` s: for any sample
time `dt > 0` with `k · dt = 1/4`, the delayed gate fires on the `k`-th
swing-countdown sample and on no earlier one — i.e. after exactly 1/4 s of
processed sample time — and the pitch and display step update to the armed
step at that same delayed moment. -/
theorem C8_swing_timing (tr : TrackRuntime) (td : TrackData) (gd dt : ℚ) (k : ℕ)
    (hg : td.gates (stepIndex tr.currentStep) = true) :
    gateDuration (1/2) (DIVISIONS 2) (1/2) = 1/4 ∧
    (tr.stepParity = 1 →
      fireStep tr td (1/2) (DIVISIONS 2) 1 gd =
        ({ tr with stepParity := 0,
                   outputPitch := td.pitches (stepIndex tr.currentStep),
                   outputStep := tr.currentStep }, some gd)) ∧
    (tr.stepParity = 0 → 0 < dt → 1 ≤ k → (k : ℚ) * dt = 1/4 →
      fireStep tr td (1/2) (DIVISIONS 2) 1 gd =
        ({ tr with stepParity := 1, swingAccumulator := 1/4,
                   pendingSwingGate := true,
                   pendingSwingStep := tr.currentStep }, none) ∧
      (∀ m : ℕ, m + 1 < k →
        swingFired td.pitches gd dt
          (fireStep tr td (1/2) (DIVISIONS 2) 1 gd).1 m = none) ∧
      swingFired td.pitches gd dt
        (fireStep tr td (1/2) (DIVISIONS 2) 1 gd).1 (k - 1) = some gd ∧
      (swingIter td.pitches gd dt
        (fireStep tr td (1/2) (DIVISIONS 2) 1 gd).1 k).outputStep = tr.currentStep ∧
      (swingIter td.pitches gd dt
        (fireStep tr td (1/2) (DIVISIONS 2) 1 gd).1 k).outputPitch =
        td.pitches (stepIndex tr.currentStep)) := by
  refine ⟨by norm_num [gateDuration, rackClamp, DIVISIONS_two], fun hpar => ?_,
    fun hpar hdt hk1 hkdt => ?_⟩
  · simp [fireStep, hpar, hg, DIVISIONS_two]
  · have hfs : fireStep tr td (1/2) (DIVISIONS 2) 1 gd =
        ({ tr with stepParity := 1, swingAccumulator := 1/4,
                   pendingSwingGate := true,
                   pendingSwingStep := tr.currentStep }, none) := by
      simp [fireStep, hpar, hg, DIVISIONS_two]
      norm_num
    set A : TrackRuntime :=
      { tr with stepParity := 1, swingAccumulator := 1/4,
                pendingSwingGate := true, pendingSwingStep := tr.currentStep }
      with hA
    have hk1Q : ((k - 1 : ℕ) : ℚ) = (k : ℚ) - 1 := by
      push_cast [Nat.cast_sub hk1]
      ring
    have hlt : ((k - 1 : ℕ) : ℚ) * dt < 1/4 := by
      rw [hk1Q]
      have hexp : ((k : ℚ) - 1) * dt = (k : ℚ) * dt - dt := by ring
      rw [hexp, hkdt]
      linarith
    have hcount := swing_countdown td.pitches gd dt (1/4) A rfl rfl hdt (k - 1) hlt
    obtain ⟨hc1, hc2, hc3, hc4, hc5, hc6⟩ := hcount
    have haccval : (A.swingAccumulator : ℚ) = 1/4 := rfl
    have hSacc : (swingIter td.pitches gd dt A (k - 1)).swingAccumulator = dt := by
      rw [hc2, hk1Q]
      have hexp : ((k : ℚ) - 1) * dt = (k : ℚ) * dt - dt := by ring
      rw [hexp, hkdt]
      ring
    have hfire : processSwing (swingIter td.pitches gd dt A (k - 1)) td.pitches gd dt =
        ({ swingIter td.pitches gd dt A (k - 1) with
            swingAccumulator := 0,
            outputPitch := td.pitches (stepIndex tr.currentStep),
            outputStep := tr.currentStep,
            pendingSwingGate := false }, some gd) := by
      unfold processSwing
      rw [if_pos ⟨hc1, by rw [hSacc]; exact hdt⟩, if_pos (by rw [hSacc]; linarith)]
      have hps : (swingIter td.pitches gd dt A (k - 1)).pendingSwingStep =
          tr.currentStep := by rw [hc5]
      simp [hps]
    have hiter : swingIter td.pitches gd dt A k =
        (processSwing (swingIter td.pitches gd dt A (k - 1)) td.pitches gd dt).1 := by
      have hk : k = (k - 1) + 1 := by omega
      rw [hk]
      rfl
    refine ⟨hfs, ?_, ?_, ?_, ?_⟩
    · intro m hm
      rw [hfs]
      exact hc6 m (by omega)
    · rw [hfs]
      show (processSwing (swingIter td.pitches gd dt A (k - 1)) td.pitches gd dt).2 = some gd
      rw [hfire]
    · rw [hfs, hiter, hfire]
    · rw [hfs, hiter, hfire]

/-- A concrete runtime state for the C8 witness: just advanced to step 2,
pre-toggle parity 0 (the swung case). -/
def rtOnBeat : TrackRuntime :=
  { currentStep := 2, pendulumDir := 1, clockPhase := 0,
    swingAccumulator := 0, stepParity := 0, pendingSwingGate := false,
    pendingSwingStep := 0, outputPitch := 0, outputStep := 0,
    trackClockPhase := 0, trackSubStep := 0 }

/-- Witness for C8: with sample time 1/16 s, the countdown armed by the
swung advance fires on exactly the 4th sample (4 · 1/16 = 1/4 s), moving
gate, pitch and display step together. -/
theorem C8_swing_timing_witness :
    fireStep rtOnBeat trackFwd4 (1/2) (DIVISIONS 2) 1 (1/4) =
      ({ rtOnBeat with stepParity := 1, swingAccumulator := 1/4,
                       pendingSwingGate := true,
                       pendingSwingStep := rtOnBeat.currentStep }, none) ∧
    (∀ m : ℕ, m + 1 < 4 →
      swingFired trackFwd4.pitches (1/4) (1/16)
        (fireStep rtOnBeat trackFwd4 (1/2) (DIVISIONS 2) 1 (1/4)).1 m = none) ∧
    swingFired trackFwd4.pitches (1/4) (1/16)
      (fireStep rtOnBeat trackFwd4 (1/2) (DIVISIONS 2) 1 (1/4)).1 (4 - 1) =
        some (1/4) ∧
    (swingIter trackFwd4.pitches (1/4) (1/16)
      (fireStep rtOnBeat trackFwd4 (1/2) (DIVISIONS 2) 1 (1/4)).1 4).outputStep =
        rtOnBeat.currentStep ∧
    (swingIter trackFwd4.pitches (1/4) (1/16)
      (fireStep rtOnBeat trackFwd4 (1/2) (DIVISIONS 2) 1 (1/4)).1 4).outputPitch =
        trackFwd4.pitches (stepIndex rtOnBeat.currentStep) :=
  (C8_swing_timing rtOnBeat trackFwd4 (1/4) (1/16) 4 rfl).2.2 rfl
    (by norm_num) (by norm_num) (by norm_num)

/-- The scene-related global state of `Sequencer` (lines 117-120, 140):
8 scene slots, current scene index (`int`), copy source (−1 = inactive),
delete-mode flag and run flag. -/
structure SceneStoreState where
  scenes : Fin 8 → SceneData
  currentScene : Int
  copySourceScene : Int
  deleteMode : Bool
  isRunning : Bool

/-- Total wrapper for the C array access `scenes[i]` on an `int` index.
Every index used by the embedded operations lies in `[0, 8)`, where the
wrapper agrees with the source; other indices (out-of-bounds reads in C++)
yield a default scene. -/
def sceneRef (f : Fin 8 → SceneData) (i : Int) : SceneData :=
  if h : 0 ≤ i ∧ i < 8 then f ⟨i.toNat, by omega⟩ else SceneData.default

/-- Lines 372-399 of `Sequencer::process`: the handler run when scene
button `s` is pressed, in priority order copy-paste / delete / normal
select (the latter lazily cloning the current scene into an empty target
before switching). -/
def sceneButton (st : SceneStoreState) (s : Fin 8) : SceneStoreState :=
  if 0 ≤ st.copySourceScene then
    { st with
      scenes := fun i => if i = s then
          { sceneRef st.scenes st.copySourceScene with isEmpty := false }
        else st.scenes i,
      copySourceScene := -1,
      currentScene := (s : Int) }
  else if st.deleteMode ∧ s ≠ 0 then
    let st1 := { st with
      scenes := fun i => if i = s then SceneData.default else st.scenes i,
      deleteMode := false }
    if st1.currentScene = (s : Int) then { st1 with currentScene := 0 } else st1
  else
    let st1 :=
      if (st.scenes s).isEmpty then
        { st with scenes := fun i => if i = s then
            { sceneRef st.scenes st.currentScene with isEmpty := false }
          else st.scenes i }
      else st
    { st1 with currentScene := (s : Int) }

/-- Lines 362-369: scene switching from the scene-CV input (when the input
is connected): quantise and clamp the voltage to 0-7 and switch only onto a
non-empty, different scene. -/
def sceneCvSwitch (st : SceneStoreState) (sceneCV : ℚ) : SceneStoreState :=
  let newScene := max (min (cTrunc sceneCV) 7) 0
  if newScene ≠ st.currentScene ∧ ¬(sceneRef st.scenes newScene).isEmpty then
    { st with currentScene := newScene }
  else st

/-- Lines 403-410: the copy-button toggle. -/
def copyToggle (st : SceneStoreState) : SceneStoreState :=
  if st.copySourceScene < 0 then
    { st with deleteMode := false, copySourceScene := st.currentScene }
  else
    { st with deleteMode := false, copySourceScene := -1 }

/-- Lines 413-416: the delete-button toggle. -/
def deleteToggle (st : SceneStoreState) : SceneStoreState :=
  { st with copySourceScene := -1, deleteMode := !st.deleteMode }

/-- Lines 254-261 of `Sequencer::onReset`, restricted to the scene store:
all scenes default, scene 0 marked non-empty, selection state cleared, and
(line 276) the run flag set. -/
def onResetStore (_st : SceneStoreState) : SceneStoreState :=
  { scenes := fun i => if i = 0 then
      { SceneData.default with isEmpty := false } else SceneData.default,
    currentScene := 0, copySourceScene := -1, deleteMode := false,
    isRunning := true }

/-- A concrete scene store used for the C5 counterexample and witnesses:
scene 0 holds data, the current scene is 3, delete mode is armed. -/
def storeDeleteArmed : SceneStoreState :=
  { scenes := fun i => if i = 0 ∨ i = 3 then
      { SceneData.default with isEmpty := false } else SceneData.default,
    currentScene := 3, copySourceScene := -1, deleteMode := true,
    isRunning := true }

/-- C5 counterexample: with delete mode armed, pressing the scene-0 button
is *not* a no-op — it falls through to the normal-select branch and
switches the current scene from 3 to 0 (delete mode does stay armed and
scene 0 is not reset, but the sequencer state changes). -/
theorem C5_delete_scene0_counterexample :
    (sceneButton storeDeleteArmed 0).currentScene = 0 ∧
    storeDeleteArmed.currentScene = 3 ∧
    (sceneButton storeDeleteArmed 0).currentScene ≠ storeDeleteArmed.currentScene := by
  refine ⟨?_, rfl, ?_⟩ <;> simp [sceneButton, storeDeleteArmed, sceneRef]

/-- C5 (amended): with delete mode armed (and no copy armed), pressing the
scene-0 button never resets scene 0 and leaves delete mode armed, but it
acts as a normal scene selection: provided scene 0 is non-empty (which is
invariant), the only change is that the current scene becomes 0. -/
theorem C5_delete_scene0_selects (st : SceneStoreState)
    (_hdel : st.deleteMode = true) (hcopy : st.copySourceScene < 0)
    (h0 : (st.scenes 0).isEmpty = false) :
    sceneButton st 0 = { st with currentScene := 0 } := by
  unfold sceneButton
  rw [if_neg (by omega)]
  rw [if_neg (by simp)]
  simp [h0]

/-- Witness for the amended C5 at the concrete armed-delete store. -/
theorem C5_delete_scene0_selects_witness :
    sceneButton storeDeleteArmed 0 = { storeDeleteArmed with currentScene := 0 } :=
  C5_delete_scene0_selects storeDeleteArmed rfl (by norm_num [storeDeleteArmed])
    (by simp [storeDeleteArmed])

/-- One track object of the persisted record, as written by `dataToJson`
(lines 697-709) and read by `dataFromJson` (lines 748-769).  Every field is
optional and the arrays may have any length, as JSON allows. -/
structure TrackRecord where
  stepCount : Option Int
  divisionIndex : Option Int
  direction : Option Int
  pitches : Option (List ℚ)
  gates : Option (List Bool)

/-- One scene object of the persisted record (lines 692-713 / 738-771). -/
structure SceneRecord where
  isEmpty : Option Bool
  tracks : Option (List TrackRecord)

/-- The whole persisted record (lines 681-718 / 722-773). -/
structure SaveRecord where
  currentScene : Option Int
  isRunning : Option Bool
  scenes : Option (List SceneRecord)

/-- The track object written by `dataToJson` for one track (lines
697-709): every field present, direction as its integer code, pitches and
gates as 8-element arrays. -/
def encodeTrack (td : TrackData) : TrackRecord :=
  { stepCount := some td.stepCount,
    divisionIndex := some td.divisionIndex,
    direction := some td.direction.toInt,
    pitches := some (List.ofFn fun s : Fin 8 => td.pitches s),
    gates := some (List.ofFn fun s : Fin 8 => td.gates s) }

/-- The scene object written by `dataToJson` for one scene (lines
692-713). -/
def encodeScene (sc : SceneData) : SceneRecord :=
  { isEmpty := some sc.isEmpty,
    tracks := some (List.ofFn fun t : Fin 3 => encodeTrack (sc.tracks t)) }

/-- Lines 680-719: `Sequencer::dataToJson`.  Serialises the current scene
index, the run flag and all 8 scenes. -/
def dataToJson (st : SceneStoreState) : SaveRecord :=
  { currentScene := some st.currentScene,
    isRunning := some st.isRunning,
    scenes := some (List.ofFn fun i : Fin 8 => encodeScene (st.scenes i)) }

/-- Lines 750-769: application of one persisted track object onto the
in-memory track — each present field overwrites, each absent field leaves
the prior value, array entries beyond the stored length stay untouched. -/
def applyTrackRecord (r : TrackRecord) (t0 : TrackData) : TrackData :=
  let t1 := match r.stepCount with
    | some v => { t0 with stepCount := v }
    | none => t0
  let t2 := match r.divisionIndex with
    | some v => { t1 with divisionIndex := v }
    | none => t1
  let t3 := match r.direction with
    | some v => { t2 with direction := Direction.ofInt v }
    | none => t2
  let t4 := { t3 with pitches := fun s =>
    match r.pitches with
    | some l => if h : (s : ℕ) < l.length then l.get ⟨s, h⟩ else t3.pitches s
    | none => t3.pitches s }
  { t4 with gates := fun s =>
    match r.gates with
    | some l => if h : (s : ℕ) < l.length then l.get ⟨s, h⟩ else t4.gates s
    | none => t4.gates s }

/-- Lines 740-770: application of one persisted scene object onto an
in-memory scene (empty flag if present, then up to 3 stored tracks). -/
def applySceneRecord (r : SceneRecord) (sc0 : SceneData) : SceneData :=
  let sc1 := match r.isEmpty with
    | some v => { sc0 with isEmpty := v }
    | none => sc0
  match r.tracks with
  | some l =>
      { sc1 with tracks := fun t =>
          if h : (t : ℕ) < l.length then applyTrackRecord (l.get ⟨t, h⟩) (sc1.tracks t)
          else sc1.tracks t }
  | none => sc1

/-- Lines 721-777 (without the trailing `loadSceneToParams` panel
write-back): `Sequencer::dataFromJson`, applied to the prior in-memory
state.  Present fields overwrite; absent fields and scenes beyond the
stored array length keep their prior values. -/
def dataFromJson (r : SaveRecord) (st : SceneStoreState) : SceneStoreState :=
  let st1 := match r.currentScene with
    | some v => { st with currentScene := v }
    | none => st
  let st2 := match r.isRunning with
    | some v => { st1 with isRunning := v }
    | none => st1
  match r.scenes with
  | some l =>
      { st2 with scenes := fun i =>
          if h : (i : ℕ) < l.length then applySceneRecord (l.get ⟨i, h⟩) (st2.scenes i)
          else st2.scenes i }
  | none => st2

lemma Direction.ofInt_toInt (d : Direction) : Direction.ofInt d.toInt = d := by
  cases d <;> rfl

lemma get_ofFn_self {α : Type} {n : ℕ} (f : Fin n → α) (i : Fin n)
    (h : (i : ℕ) < (List.ofFn f).length) : (List.ofFn f).get ⟨i, h⟩ = f i := by
  rw [List.get_ofFn]
  congr 1

lemma dite_ofFn_lt {α β : Type} {n : ℕ} (f : Fin n → α) (i : Fin n)
    (a : (i : ℕ) < (List.ofFn f).length → β) (b : ¬(i : ℕ) < (List.ofFn f).length → β) :
    dite ((i : ℕ) < (List.ofFn f).length) a b = a (by simp) :=
  dif_pos (by simp)

lemma applyTrackRecord_encode (td t0 : TrackData) :
    applyTrackRecord (encodeTrack td) t0 =
      { stepCount := td.stepCount, divisionIndex := td.divisionIndex,
        direction := Direction.ofInt td.direction.toInt,
        pitches := fun s => (List.ofFn fun j : Fin 8 => td.pitches j).get
          ⟨s, by simp⟩,
        gates := fun s => (List.ofFn fun j : Fin 8 => td.gates j).get
          ⟨s, by simp⟩ } := by
  show TrackData.mk _ _ _
      (fun s => dite _ (fun h => (List.ofFn fun j : Fin 8 => td.pitches j).get ⟨s, h⟩)
        (fun _ => t0.pitches s))
      (fun s => dite _ (fun h => (List.ofFn fun j : Fin 8 => td.gates j).get ⟨s, h⟩)
        (fun _ => t0.gates s)) = _
  congr 1 <;> funext s <;> rw [dite_ofFn_lt]

lemma applySceneRecord_encode (sc sc0 : SceneData) :
    applySceneRecord (encodeScene sc) sc0 =
      { isEmpty := sc.isEmpty,
        tracks := fun t =>
          applyTrackRecord (encodeTrack (sc.tracks t)) (sc0.tracks t) } := by
  show SceneData.mk
      (fun t => dite _
        (fun h => applyTrackRecord
          ((List.ofFn fun j : Fin 3 => encodeTrack (sc.tracks j)).get ⟨t, h⟩)
          (sc0.tracks t))
        (fun _ => sc0.tracks t)) _ = _
  congr 1
  funext t
  rw [dite_ofFn_lt]
  rw [get_ofFn_self]

lemma dataFromJson_encode (st prior : SceneStoreState) :
    dataFromJson (dataToJson st) prior =
      { scenes := fun i =>
          applySceneRecord (encodeScene (st.scenes i)) (prior.scenes i),
        currentScene := st.currentScene,
        copySourceScene := prior.copySourceScene,
        deleteMode := prior.deleteMode,
        isRunning := st.isRunning } := by
  show SceneStoreState.mk
      (fun i => dite _
        (fun h => applySceneRecord
          ((List.ofFn fun j : Fin 8 => encodeScene (st.scenes j)).get ⟨i, h⟩)
          (prior.scenes i))
        (fun _ => prior.scenes i)) _ _ _ _ = _
  congr 1
  funext i
  rw [dite_ofFn_lt]
  rw [get_ofFn_self]

/-- C7: serialising all 8 scenes with `dataToJson` and then applying the
produced record with `dataFromJson` — to any prior in-memory state —
reproduces the original current scene index, run flag, and for every scene
its empty flag and for every track its step count, division index,
direction, all 8 pitch values and all 8 gate booleans. -/
theorem C7_persistence_roundtrip (st prior : SceneStoreState) :
    (dataFromJson (dataToJson st) prior).currentScene = st.currentScene ∧
    (dataFromJson (dataToJson st) prior).isRunning = st.isRunning ∧
    ∀ i : Fin 8,
      ((dataFromJson (dataToJson st) prior).scenes i).isEmpty =
        (st.scenes i).isEmpty ∧
      ∀ t : Fin 3,
        (((dataFromJson (dataToJson st) prior).scenes i).tracks t).stepCount =
          ((st.scenes i).tracks t).stepCount ∧
        (((dataFromJson (dataToJson st) prior).scenes i).tracks t).divisionIndex =
          ((st.scenes i).tracks t).divisionIndex ∧
        (((dataFromJson (dataToJson st) prior).scenes i).tracks t).direction =
          ((st.scenes i).tracks t).direction ∧
        ∀ s : Fin 8,
          (((dataFromJson (dataToJson st) prior).scenes i).tracks t).pitches s =
            ((st.scenes i).tracks t).pitches s ∧
          (((dataFromJson (dataToJson st) prior).scenes i).tracks t).gates s =
            ((st.scenes i).tracks t).gates s := by
  rw [dataFromJson_encode]
  simp only [applySceneRecord_encode, applyTrackRecord_encode, get_ofFn_self,
    Direction.ofInt_toInt]
  simp

/-- A persisted record that does not mark scene 0 empty: its scene array is
absent or empty, or the first scene entry's `isEmpty` field is absent or
`false`.  Records produced by `dataToJson` from a state with scene 0
non-empty have this property. -/
def recordScene0Keeps (r : SaveRecord) : Prop :=
  match r.scenes with
  | none => True
  | some [] => True
  | some (sc :: _) => sc.isEmpty ≠ some true

lemma dataFromJson_scenes_eq (r : SaveRecord) (st : SceneStoreState) :
    (dataFromJson r st).scenes =
      match r.scenes with
      | some l => fun i => if h : (i : ℕ) < l.length
          then applySceneRecord (l.get ⟨i, h⟩) (st.scenes i) else st.scenes i
      | none => st.scenes := by
  rcases r with ⟨rc, ri, rs⟩
  rcases rc <;> rcases ri <;> rcases rs <;> rfl

/-- The scene store right after `onReset` (lines 254-261): only scene 0
non-empty, scene 0 current, no copy/delete armed. -/
def initStore : SceneStoreState :=
  { scenes := fun i => if i = 0 then { SceneData.default with isEmpty := false }
      else SceneData.default,
    currentScene := 0, copySourceScene := -1, deleteMode := false,
    isRunning := true }

/-- A persisted record whose scene-0 entry is marked empty (as a corrupt or
hand-edited patch can contain). -/
def badRecord : SaveRecord :=
  { currentScene := none, isRunning := none,
    scenes := some [{ isEmpty := some true, tracks := none }] }

/-- C6 counterexample: `dataFromJson` copies the stored `isEmpty` flag for
scene 0 without any guard (lines 740-743), so loading a persisted record
whose scene-0 entry says `isEmpty = true` leaves `scenes[0].isEmpty =
true` — the claimed invariant is violated by the load operation. -/
theorem C6_load_marks_scene0_empty_counterexample :
    (initStore.scenes 0).isEmpty = false ∧
    ((dataFromJson badRecord initStore).scenes 0).isEmpty = true :=
  ⟨rfl, rfl⟩

/-- C6 (amended): every in-process scene operation — module reset, scene
button press (copy-paste, delete or normal select), scene-CV switch, and
the copy and delete toggles — preserves `scenes[0].isEmpty = false`, and a
record serialised from such a state never marks scene 0 empty; but
`dataFromJson` preserves the invariant only for records that do not mark
scene 0 empty (`recordScene0Keeps`) — an arbitrary persisted record can
violate it. -/
theorem C6_scene0_never_empty (st : SceneStoreState) (s : Fin 8) (q : ℚ)
    (r : SaveRecord) (h0 : (st.scenes 0).isEmpty = false) :
    ((onResetStore st).scenes 0).isEmpty = false ∧
    ((sceneButton st s).scenes 0).isEmpty = false ∧
    ((sceneCvSwitch st q).scenes 0).isEmpty = false ∧
    ((copyToggle st).scenes 0).isEmpty = false ∧
    ((deleteToggle st).scenes 0).isEmpty = false ∧
    (recordScene0Keeps r → ((dataFromJson r st).scenes 0).isEmpty = false) ∧
    recordScene0Keeps (dataToJson st) := by
  refine ⟨by simp [onResetStore], ?_, ?_, ?_, ?_, ?_, ?_⟩
  · unfold sceneButton
    by_cases h1 : 0 ≤ st.copySourceScene
    · rw [if_pos h1]
      by_cases hs : (0 : Fin 8) = s <;> simp [hs, h0]
    · rw [if_neg h1]
      by_cases h2 : st.deleteMode = true ∧ s ≠ 0
      · rw [if_pos h2]
        have hz : ¬((0 : Fin 8) = s) := fun h => h2.2 h.symm
        by_cases hc : st.currentScene = (s : Int) <;> simp [hc, hz, h0]
      · rw [if_neg h2]
        by_cases h3 : (st.scenes s).isEmpty = true
        · by_cases hs : (0 : Fin 8) = s <;> simp [h3, hs, h0]
        · simp [h3, h0]
  · unfold sceneCvSwitch
    dsimp only
    split
    · exact h0
    · exact h0
  · unfold copyToggle
    split_ifs <;> simp [h0]
  · simp [deleteToggle, h0]
  · intro hr
    rw [dataFromJson_scenes_eq]
    unfold recordScene0Keeps at hr
    rcases hrs : r.scenes with _ | l
    · simp [hrs, h0]
    · rcases l with _ | ⟨sc, rest⟩
      · simp [hrs, h0]
      · rw [hrs] at hr
        simp only [hrs]
        rw [dif_pos (by simp)]
        show (applySceneRecord sc (st.scenes 0)).isEmpty = false
        unfold applySceneRecord
        rcases hsc : sc.isEmpty with _ | b
        · rcases sc.tracks with _ | tl <;> simp [hsc, h0]
        · rcases b with _ | _
          · rcases sc.tracks with _ | tl <;> simp [hsc]
          · exact absurd (by rw [hsc]) hr
  · unfold recordScene0Keeps dataToJson
    have h8 : List.ofFn (fun i : Fin 8 => encodeScene (st.scenes i)) =
        encodeScene (st.scenes 0) :: (List.ofFn fun i : Fin 7 =>
          encodeScene (st.scenes i.succ)) := by
      rw [List.ofFn_succ]
    rw [h8]
    simp [encodeScene, h0]

/-- Witness for the amended C6 at the post-reset store, scene button 1,
scene CV 0 V, and the record serialised from that same store (which keeps
scene 0 non-empty, so the load conjunct applies). -/
theorem C6_scene0_never_empty_witness :
    ((onResetStore initStore).scenes 0).isEmpty = false ∧
    ((sceneButton initStore 1).scenes 0).isEmpty = false ∧
    ((sceneCvSwitch initStore 0).scenes 0).isEmpty = false ∧
    ((copyToggle initStore).scenes 0).isEmpty = false ∧
    ((deleteToggle initStore).scenes 0).isEmpty = false ∧
    (recordScene0Keeps (dataToJson initStore) →
      ((dataFromJson (dataToJson initStore) initStore).scenes 0).isEmpty = false) ∧
    recordScene0Keeps (dataToJson initStore) :=
  C6_scene0_never_empty initStore 1 0 (dataToJson initStore) rfl

end Sengbard
